import Mathlib

/-!
Verification of `tools/fetch_assets.py` (asset-acquisition and manifest-build
pipeline of the Dogfight1940 repository).

Strings are modelled as `List Char` throughout, matching Python `str`
character-by-character for the ASCII inputs that occur in the program.
-/

namespace FetchAssets

/-- Lowercase a character list. Models Python `str.lower()` (ASCII range). -/
def lowerL (s : List Char) : List Char := s.map Char.toLower

/-- Boolean contiguous-substring test: `containsSub hay needle` models the
Python expression `needle in hay` on strings. -/
def containsSub (hay needle : List Char) : Bool :=
  match hay with
  | [] => needle.isEmpty
  | _ :: t => needle.isPrefixOf hay || containsSub t needle

/-! ## Regex fragment used by `_pick_best_kenney_zip_link`

The source (fetch_assets.py line 279) calls
`re.findall(r"https://kenney\\.nl/[^\"'<>\s]+\\.zip", html)`.
Because the pattern is a *raw* string, `\\` denotes one literal backslash
character in the regex, so the regex tokens are: the literal characters
`https://kenney`, a literal backslash, `.` (any character except newline),
the literals `nl/`, the class `[^"'<>\s]+` (one or more characters that are
not a quote, apostrophe, angle bracket or whitespace), a literal backslash,
`.`, and the literals `zip`.  We embed exactly this token list and a
backtracking matcher with Python's leftmost, greedy, non-overlapping
`findall` semantics. -/

/-- One token of the (tiny) regex language actually used by the pattern. -/
inductive RTok where
  /-- a literal character -/
  | lit (c : Char)
  /-- `.` — any character except newline (Python default, no DOTALL) -/
  | anyc
  /-- `[^…]+` — one or more characters not in `excl` -/
  | nclassPlus (excl : List Char)
deriving DecidableEq

/-- Length of the maximal prefix of `s` avoiding every character of `excl`. -/
def runLen (excl : List Char) : List Char → Nat
  | [] => 0
  | c :: t => if excl.contains c then 0 else runLen excl t + 1

/-- Backtracking helper: try consuming `k, k-1, …, 1` characters for a
`[^…]+` token, continuing with `cont` on the rest (greedy preference). -/
def tryLens (cont : List Char → Option Nat) (s : List Char) : Nat → Option Nat
  | 0 => none
  | k + 1 =>
    match cont (s.drop (k + 1)) with
    | some n => some (k + 1 + n)
    | none => tryLens cont s k

/-- Fuel-indexed matcher (structural recursion on the fuel so the kernel
can evaluate it; every step consumes one token, so fuel = token count + 1
is always enough and the `0` branch is unreachable from `rmatch`). -/
def rmatchF : Nat → List RTok → List Char → Option Nat
  | 0, _, _ => none
  | _ + 1, [], _ => some 0
  | fuel + 1, .lit c :: ps, s =>
    match s with
    | [] => none
    | d :: t => if d = c then (rmatchF fuel ps t).map (· + 1) else none
  | fuel + 1, .anyc :: ps, s =>
    match s with
    | [] => none
    | d :: t =>
      if d = Char.ofNat 10 then none else (rmatchF fuel ps t).map (· + 1)
  | fuel + 1, .nclassPlus excl :: ps, s =>
    tryLens (fun t => rmatchF fuel ps t) s (runLen excl s)

/-- `rmatch ts s` — does the token list match a prefix of `s`?  Returns the
number of characters consumed (greedy, with backtracking), as Python's
`re` engine would at a fixed starting position. -/
def rmatch (ts : List RTok) (s : List Char) : Option Nat :=
  rmatchF (ts.length + 1) ts s

/-- Fuel-indexed scanner (fuel = length of the scanned suffix; every step
consumes at least one character, so the `0` branch is unreachable from
`findall`). -/
def findallF : Nat → List RTok → List Char → List (List Char)
  | 0, _, _ => []
  | _ + 1, _, [] => []
  | fuel + 1, ps, c :: t =>
    match rmatch ps (c :: t) with
    | some (n + 1) => (c :: t).take (n + 1) :: findallF fuel ps (t.drop n)
    | _ => findallF fuel ps t

/-- Python `re.findall` semantics for our patterns: scan left to right,
report each leftmost non-overlapping match, resume after its end.  (Our
patterns never match the empty string, so every reported match consumes at
least one character.) -/
def findall (ps : List RTok) (s : List Char) : List (List Char) :=
  findallF s.length ps s

/-- Literal tokens for a plain string. -/
def lits (s : String) : List RTok := s.data.map RTok.lit

/-- ASCII whitespace characters matched by Python's `\s`. -/
def wsChars : List Char :=
  [' ', Char.ofNat 9, Char.ofNat 10, Char.ofNat 11, Char.ofNat 12, Char.ofNat 13]

/-- The excluded set of the class `[^"'<>\s]`. -/
def kenneyZipExcl : List Char :=
  [Char.ofNat 34, Char.ofNat 39, '<', '>'] ++ wsChars

/-- The token list of the pattern the source actually compiles:
`https://kenney\\.nl/[^"'<>\s]+\\.zip` written as a raw Python string, i.e.
with a **literal backslash** before each wildcard dot. -/
def kenneyZipRegex : List RTok :=
  lits "https://kenney" ++ [RTok.lit (Char.ofNat 92), RTok.anyc] ++ lits "nl/"
    ++ [RTok.nclassPlus kenneyZipExcl, RTok.lit (Char.ofNat 92), RTok.anyc]
    ++ lits "zip"

/-- Modelled from the spec: the "known URL shape `https://kenney.nl/…zip`",
i.e. the pattern `https://kenney\.nl/[^"'<>\s]+\.zip` with the dots
escaped as the page-scraping comment in the source intends. -/
def specKenneyZipRegex : List RTok :=
  lits "https://kenney." ++ lits "nl/"
    ++ [RTok.nclassPlus kenneyZipExcl, RTok.lit (Char.ofNat 46)]
    ++ lits "zip"

/-- `_pick_best_kenney_zip_link` (fetch_assets.py lines 276–286): findall
with the pattern above; `None` when no match; otherwise scan the matches in
reverse for one containing both `/media/pages/assets/` and `kenney_`,
falling back to the last match. -/
def pickBestKenneyZipLink (html : List Char) : Option (List Char) :=
  let zips := findall kenneyZipRegex html
  match zips with
  | [] => none
  | _ =>
    match zips.reverse.find? (fun cand =>
        containsSub cand "/media/pages/assets/".data
          && containsSub cand "kenney_".data) with
    | some c => some c
    | none => zips.getLast?

/-- A catalog page fragment holding a well-formed direct ZIP download link
of the documented shape. -/
def kenneyHtmlExample : List Char :=
  "<a href=".data ++ [Char.ofNat 34]
    ++ "https://kenney.nl/media/pages/assets/kenney_building-kit.zip".data
    ++ [Char.ofNat 34] ++ ">".data

/-! ## More string helpers (Python `replace`, `strip`, glob matching) -/

/-- Fuel-indexed removal of every occurrence of `needle` (Python
`hay.replace(needle, "")`, left to right, non-overlapping).  Each step
consumes at least one character of `hay`, so fuel = `hay.length` always
suffices. -/
def removeAllF : Nat → List Char → List Char → List Char
  | 0, _, hay => hay
  | _ + 1, _, [] => []
  | fuel + 1, needle, c :: t =>
    if !needle.isEmpty && needle.isPrefixOf (c :: t) then
      removeAllF fuel needle ((c :: t).drop needle.length)
    else c :: removeAllF fuel needle t

/-- Python `hay.replace(needle, "")`. -/
def removeAll (needle hay : List Char) : List Char :=
  removeAllF hay.length needle hay

/-- Is `c` ASCII whitespace (the characters Python `str.strip()` strips)? -/
def isWs (c : Char) : Bool := wsChars.contains c

/-- Python `str.strip()`: drop leading and trailing whitespace. -/
def stripWs (s : List Char) : List Char :=
  ((s.dropWhile isWs).reverse.dropWhile isWs).reverse

/-- The normalization used by `find_local_zip` (lines 235 and 239):
lowercase, then delete every `_` and `-`. -/
def normalizeName (s : List Char) : List Char :=
  (lowerL s).filter (fun c => c ≠ '_' && c ≠ '-')

/-- Fuel-indexed glob/\x66nmatch matching for the patterns this program uses:
`*` matches any (possibly empty) run of characters and every other
character matches itself (no `?` or `[...]` occurs in any pattern of the
source).  Each step shrinks `pattern.length + s.length`, so fuel =
`pattern.length + s.length + 1` suffices. -/
def globMatchF : Nat → List Char → List Char → Bool
  | 0, _, _ => false
  | _ + 1, [], s => s.isEmpty
  | fuel + 1, c :: p, s =>
    if c = '*' then
      globMatchF fuel p s
        || (match s with
            | [] => false
            | _ :: t => globMatchF fuel (c :: p) t)
    else
      match s with
      | [] => false
      | d :: t => c == d && globMatchF fuel p t

/-- Glob pattern match (see `globMatchF`). -/
def globMatch (pat s : List Char) : Bool :=
  globMatchF (pat.length + s.length + 1) pat s

/-- Python `Path.name`: the part of a path after the final `/`. -/
def baseName (p : List Char) : List Char :=
  (p.reverse.takeWhile (· ≠ '/')).reverse

/-- Python `Path.suffix`: the final extension of the basename including its
dot; empty when the basename has no dot past position zero. -/
def sfx (p : List Char) : List Char :=
  let b := baseName p
  let after := (b.reverse.takeWhile (· ≠ '.')).reverse
  if after.length + 1 < b.length then '.' :: after else []

/-! ## Local cache lookups and the CLI surface (claims C2, C8) -/

/-- A Kenney bundle spec (the `KenneyPack` dataclass, lines 93–96). -/
structure KenneyPack where
  slug : List Char
  page_url : List Char
deriving DecidableEq

/-- The ingest-cache lookup `fetch_kenney_pack` actually performs (lines
296–300): the first cached ZIP filename whose lowercasing contains the
lowercased slug as a substring (separators are *not* stripped here). -/
def kenneyIngestLookup (slug : List Char) : List (List Char) → Option (List Char)
  | [] => none
  | z :: rest =>
    if containsSub (lowerL z) (lowerL slug) then some z
    else kenneyIngestLookup slug rest

/-- `find_local_zip` (lines 230–248): the normalized lookup — lowercase and
strip `_`/`-` on both sides, accept a file if it contains the normalized
slug, or the normalized slug with every `kenney` removed (then
whitespace-stripped), as a substring.  This helper is defined in the
source but never called by any function in the program. -/
def find_local_zip (ingestZips : List (List Char)) (pack_slug : List Char) :
    Option (List Char) :=
  let nslug := normalizeName pack_slug
  let nslug2 := stripWs (removeAll "kenney".data nslug)
  ingestZips.find? (fun z =>
    containsSub (normalizeName z) nslug || containsSub (normalizeName z) nslug2)

/-- Parsed CLI flags (argparse, `main` lines 715–724). -/
structure Args where
  project : List Char
  no_textures : Bool
  local_only : Bool
  ww2_assets : Bool
  ww2_textures : Bool
  polyhaven : Bool
  list_assets : Bool
  all : Bool
deriving DecidableEq

/-- How `fetch_kenney_pack` obtains the ZIP for one pack. -/
inductive FetchSource where
  /-- a matching file was found in `assets/ingest` — no network access -/
  | cached (name : List Char)
  /-- no cache match: fetch the catalog page at `page_url` and download -/
  | network (page_url : List Char)
deriving DecidableEq

/-- The source-resolution step of `fetch_kenney_pack` (lines 292–320) as
invoked from `main`: consult the ingest cache, and on a miss go to the
network unconditionally.  The parsed flags are in scope in `main`, but no
flag is threaded into this decision — in particular `args.local_only` is
defined by the argument parser (line 718) and never read anywhere in the
program. -/
def kenneyFetchSource (_args : Args) (ingestZips : List (List Char))
    (pack : KenneyPack) : FetchSource :=
  match kenneyIngestLookup pack.slug ingestZips with
  | some z => .cached z
  | none => .network pack.page_url

/-! ## Resource paths and the asset classifier (claims C6, C9) -/

/-- `_rel_res_path` (lines 520–522): the path made relative to the project
root and prefixed with `res://`.  (Python's `relative_to` raises when the
path is not under the root; every call site of the program passes paths
under the root, and the model leaves such a path unchanged — the `res://`
prefix is applied either way.  The `"\\" → "/"` substitution is a no-op
for the `/`-separated paths modelled here.) -/
def relResPath (root p : List Char) : List Char :=
  "res://".data
    ++ (if (root ++ ['/']).isPrefixOf p then p.drop (root.length + 1) else p)

/-- One successfully extracted pack: its directory path and the paths of
all files below it, in `rglob` traversal order. -/
structure PackDir where
  path : List Char
  files : List (List Char)
deriving DecidableEq

/-- The model-file extensions recognized by `build_variant_pools`
(line 542). -/
def modelExts : List (List Char) :=
  [".glb".data, ".gltf".data, ".fbx".data, ".obj".data]

/-- `_walk_files` (lines 512–517) over one extracted pack: its files with a
recognized (lowercased) extension. -/
def walkModelFiles (d : PackDir) : List (List Char) :=
  d.files.filter (fun p => modelExts.contains (lowerL (sfx p)))

/-- The concatenated model-file scan over all pack directories
(lines 540–542). -/
def modelFiles (packDirs : List PackDir) : List (List Char) :=
  (packDirs.map walkModelFiles).flatten

/-- Coarse origin buckets (lines 545–548): case-insensitive substring tests
against each file's full path. -/
def suburbanBucket (ms : List (List Char)) : List (List Char) :=
  ms.filter (fun p => containsSub (lowerL p) "suburban".data)

/-- Files whose path contains `industrial`. -/
def industrialBucket (ms : List (List Char)) : List (List Char) :=
  ms.filter (fun p => containsSub (lowerL p) "industrial".data)

/-- Files whose path contains both `building` and `kit`. -/
def buildingKitBucket (ms : List (List Char)) : List (List Char) :=
  ms.filter (fun p =>
    containsSub (lowerL p) "building".data && containsSub (lowerL p) "kit".data)

/-- Files whose path contains `nature`. -/
def natureBucket (ms : List (List Char)) : List (List Char) :=
  ms.filter (fun p => containsSub (lowerL p) "nature".data)

/-- `_select_by_patterns` (lines 525–535): keep paths whose lowercased
basename matches at least one include pattern (or all paths when the
include list is empty) and matches no exclude pattern. -/
def selectByPatterns (paths : List (List Char)) (incl excl : List (List Char)) :
    List (List Char) :=
  paths.filter (fun p =>
    let name := lowerL (baseName p)
    (incl.isEmpty || incl.any (fun pat => globMatch (lowerL pat) name))
      && !(excl.any (fun pat => globMatch (lowerL pat) name)))

/-- `euro_candidates` (lines 550–554). -/
def euroCandidates (ms : List (List Char)) : List (List Char) :=
  selectByPatterns (suburbanBucket ms ++ buildingKitBucket ms)
    ["*house*".data, "*building*".data, "*home*".data, "*residence*".data,
      "*hut*".data]
    ["*door*".data, "*window*".data, "*fence*".data, "*road*".data,
      "*lamp*".data, "*sign*".data, "*car*".data]

/-- `ind_candidates` (lines 555–559). -/
def indCandidates (ms : List (List Char)) : List (List Char) :=
  selectByPatterns (industrialBucket ms ++ buildingKitBucket ms)
    ["*factory*".data, "*warehouse*".data, "*hangar*".data, "*building*".data,
      "*shed*".data, "*container*".data]
    ["*road*".data, "*lamp*".data, "*sign*".data, "*car*".data]

/-- `shack_candidates` (lines 560–564). -/
def shackCandidates (ms : List (List Char)) : List (List Char) :=
  selectByPatterns (suburbanBucket ms ++ buildingKitBucket ms)
    ["*hut*".data, "*cabin*".data, "*shack*".data, "*house*".data,
      "*small*".data]
    ["*door*".data, "*window*".data, "*fence*".data]

/-- `tree_candidates` (lines 565–569). -/
def treeCandidates (ms : List (List Char)) : List (List Char) :=
  selectByPatterns (natureBucket ms)
    ["*tree*".data, "*pine*".data, "*palm*".data]
    ["*log*".data, "*stump*".data, "*leaf*".data]

/-- `conifer_candidates` (line 572): tree candidates whose basename
contains a conifer keyword. -/
def coniferCandidates (ms : List (List Char)) : List (List Char) :=
  (treeCandidates ms).filter (fun p =>
    ["pine".data, "fir".data, "spruce".data, "conifer".data].any
      (fun k => containsSub (lowerL (baseName p)) k))

/-- `palm_candidates` (line 573). -/
def palmCandidates (ms : List (List Char)) : List (List Char) :=
  (treeCandidates ms).filter (fun p => containsSub (lowerL (baseName p)) "palm".data)

/-- `broadleaf_candidates` (lines 574–578), including the
all-trees-as-broadleaf fallback branch. -/
def broadleafCandidates (ms : List (List Char)) : List (List Char) :=
  let tc := treeCandidates ms
  let bl := tc.filter (fun p =>
    !(coniferCandidates ms).contains p && !(palmCandidates ms).contains p)
  if (coniferCandidates ms).isEmpty && (palmCandidates ms).isEmpty
      && !tc.isEmpty then tc else bl

/-- The six named variant pools (the dict returned by
`build_variant_pools` and the manifest's `variants` object). -/
structure Variants where
  euro_buildings : List (List Char)
  industrial_buildings : List (List Char)
  beach_shacks : List (List Char)
  trees_conifer : List (List Char)
  trees_broadleaf : List (List Char)
  trees_palm : List (List Char)
deriving DecidableEq

/-- The all-empty pools used as the zero-packs fallback (lines 672–679). -/
def emptyVariants : Variants := ⟨[], [], [], [], [], []⟩

/-- `build_variant_pools` (lines 538–591): classify, convert to `res://`
paths, and cap each pool. -/
def build_variant_pools (root : List Char) (packDirs : List PackDir) : Variants :=
  let ms := modelFiles packDirs
  { euro_buildings := ((euroCandidates ms).map (relResPath root)).take 24
    industrial_buildings := ((indCandidates ms).map (relResPath root)).take 24
    beach_shacks := ((shackCandidates ms).map (relResPath root)).take 24
    trees_conifer := ((coniferCandidates ms).map (relResPath root)).take 32
    trees_broadleaf := ((broadleafCandidates ms).map (relResPath root)).take 32
    trees_palm := ((palmCandidates ms).map (relResPath root)).take 32 }

/-! ## Texture-set builder (claim C5) -/

/-- One directory under `assets/external/textures/ambientcg`: its name and
the names of the files inside it, in listing order. -/
structure TexDir where
  name : List Char
  files : List (List Char)
deriving DecidableEq

/-- A texture set: the optional per-channel resource paths built by
`build_texture_sets` (a channel is present exactly when a matching file
was found). -/
structure TextureSet where
  albedo : Option (List Char)
  normal : Option (List Char)
  roughness : Option (List Char)
  metallic : Option (List Char)
  ao : Option (List Char)
  height : Option (List Char)
deriving DecidableEq

/-- Python's `if texture_set:` — is the channel dict empty? -/
def TextureSet.isEmptySet (t : TextureSet) : Bool :=
  t.albedo.isNone && t.normal.isNone && t.roughness.isNone
    && t.metallic.isNone && t.ao.isNone && t.height.isNone

/-- One channel lookup inside the winning directory (e.g. lines 621–623):
the first file matching `base*Suffix.jpg`, as a `res://` path. -/
def chChannel (root texturesDir : List Char) (d : TexDir) (base chSuffix : List Char) :
    Option (List Char) :=
  ((d.files.filter (fun f => globMatch (base ++ '*' :: chSuffix) f)).head?).map
    (fun f => relResPath root (texturesDir ++ '/' :: d.name ++ '/' :: f))

/-- The channel record built from one texture directory (lines 614–648):
`base` is the directory name with every `_2K-JPG` removed. -/
def mkTextureSet (root texturesDir : List Char) (d : TexDir) : TextureSet :=
  let base := removeAll "_2K-JPG".data d.name
  { albedo := chChannel root texturesDir d base "Color.jpg".data
    normal := chChannel root texturesDir d base "NormalGL.jpg".data
    roughness := chChannel root texturesDir d base "Roughness.jpg".data
    metallic := chChannel root texturesDir d base "Metalness.jpg".data
    ao := chChannel root texturesDir d base "AmbientOcclusion.jpg".data
    height := chChannel root texturesDir d base "Displacement.jpg".data }

/-- The candidate loop of `build_texture_sets` for one logical key
(lines 609–652): try candidates in order; for the first candidate with at
least one directory whose name matches `cand*`, build the channel record
from the first such directory; keep it and stop only if at least one
channel was found (`if texture_set: … break`), otherwise keep trying later
candidates. -/
def pickTextureSet (root texturesDir : List Char) (dirs : List TexDir) :
    List (List Char) → Option TextureSet
  | [] => none
  | cand :: rest =>
    match dirs.filter (fun d => globMatch (cand ++ ['*']) d.name) with
    | [] => pickTextureSet root texturesDir dirs rest
    | d :: _ =>
      let ts := mkTextureSet root texturesDir d
      if ts.isEmptySet then pickTextureSet root texturesDir dirs rest
      else some ts

/-- The four logical texture keys (the `texture_mappings` dict,
lines 602–607) with their outputs; `none` = key absent from the returned
dict. -/
structure TextureSets where
  building_atlas_euro : Option TextureSet
  building_atlas_industrial : Option TextureSet
  terrain_grass : Option TextureSet
  terrain_pavement : Option TextureSet
deriving DecidableEq

/-- `build_texture_sets` (lines 594–654).  `texFS = none` models a missing
textures directory (the early-return branch, lines 598–599); otherwise
`texFS` lists the directories found on disk, in listing order. -/
def build_texture_sets (root texturesDir : List Char)
    (texFS : Option (List TexDir)) : TextureSets :=
  match texFS with
  | none => ⟨none, none, none, none⟩
  | some dirs =>
    { building_atlas_euro :=
        pickTextureSet root texturesDir dirs ["Bricks079".data, "Concrete023".data]
      building_atlas_industrial :=
        pickTextureSet root texturesDir dirs
          ["MetalPlates006".data, "Concrete023".data]
      terrain_grass := pickTextureSet root texturesDir dirs ["Grass004".data]
      terrain_pavement :=
        pickTextureSet root texturesDir dirs
          ["Asphalt012".data, "Concrete023".data] }

/-! ## Manifest writer (claims C3, C4, C9) -/

/-- The manifest's `status` object (lines 703–707). -/
structure Status where
  assets_downloaded : Bool
  asset_count : Nat
  warning : List Char
deriving DecidableEq

/-- The manifest `data` dict (lines 684–708), minus the two provenance
strings `generated_by` (a constant) and `generated_at` (wall-clock time,
not modelled). -/
structure Manifest where
  version : Nat
  use_external_assets : Bool
  variants : Variants
  textures : TextureSets
  packs_dir : List Char
  textures_dir : List Char
  status : Status
deriving DecidableEq

/-- `write_manifest` (lines 657–711): force all pools empty when no pack
directory was produced, rebuild texture sets from disk, and emit the
manifest record.  (The inner helper `first_or_empty` of the source is dead
code — nothing in the emitted dict calls it.) -/
def write_manifest (root packsDir texturesDir : List Char) (variants : Variants)
    (packDirPaths : List (List Char)) (texFS : Option (List TexDir)) : Manifest :=
  let has_assets : Bool := !packDirPaths.isEmpty
  let variants := if has_assets then variants else emptyVariants
  { version := 2
    use_external_assets := has_assets
    variants := variants
    textures := build_texture_sets root texturesDir texFS
    packs_dir := relResPath root packsDir
    textures_dir := relResPath root texturesDir
    status :=
      { assets_downloaded := has_assets
        asset_count := packDirPaths.length
        warning :=
          if has_assets then "Assets downloaded successfully.".data
          else "No assets were successfully downloaded. Using fallback values.".data } }

/-! ## Orchestration in `main` (claims C2, C3, C7) -/

/-- Outcome of one attempted pack fetch-and-extract, as seen by `main`'s
per-pack `try` (lines 752–756, 760–764, 768–774): the extracted directory,
or a failure (an exception caught and logged, or — for Poly Haven — a
`None` return). -/
inductive PackResult where
  | ok (d : PackDir)
  | failed
deriving DecidableEq

/-- The successfully extracted directories of a list of attempts, in
order. -/
def okDirs (rs : List PackResult) : List PackDir :=
  rs.filterMap (fun r => match r with | .ok d => some d | .failed => none)

/-- Outcome of processing one texture inside `fetch_ambientcg_textures`
(lines 343–390). -/
inductive TexStep where
  /-- resolved (cache or download) and extracted fine; the extracted
  directory path is recorded -/
  | okTex (dir : List Char)
  /-- the download failed: caught in the loop body, `continue` -/
  | downloadFailed
  /-- `extract_zip` raised (corrupt archive): nothing in the loop catches
  it, so it propagates out of the whole batch -/
  | extractRaised
deriving DecidableEq

/-- `fetch_ambientcg_textures` (lines 336–391) over the per-texture
outcomes: returns the directories whose extraction completed, and whether
an exception escaped the batch (aborting all later textures of the
batch). -/
def fetch_ambientcg_textures : List TexStep → List (List Char) × Bool
  | [] => ([], false)
  | .okTex d :: rest =>
    let r := fetch_ambientcg_textures rest
    (d :: r.1, r.2)
  | .downloadFailed :: rest => fetch_ambientcg_textures rest
  | .extractRaised :: _ => ([], true)

/-- The per-run fetch outcomes `main` observes, plus the state of the
textures directory when the manifest is written. -/
structure RunInputs where
  base : List PackResult
  ww2 : List PackResult
  poly : List PackResult
  baseTex : List TexStep
  ww2Tex : List TexStep
  polyTex : List TexStep
  texFS : Option (List TexDir)
deriving DecidableEq

/-- The pack directories `main` accumulates (lines 751–774): base packs
always, WW2 packs when `--ww2-assets` (or `--all`), Poly Haven assets when
`--polyhaven` (or `--all`); only successes are appended.  The texture
batches contribute nothing — `fetch_ambientcg_textures`'s return value is
discarded at lines 780, 787 and 794. -/
def mainPackDirs (args : Args) (inp : RunInputs) : List PackDir :=
  okDirs inp.base
    ++ (if args.ww2_assets || args.all then okDirs inp.ww2 else [])
    ++ (if args.polyhaven || args.all then okDirs inp.poly else [])

/-- `main` from line 750 on (the fetch-classify-write phase, after the
`--list-assets` early exit and the `--all` flag expansion): collect pack
directories, run the texture batches (results discarded), build variant
pools from the pack directories only, and write the manifest. -/
def mainRun (args : Args) (root packsDir texturesDir : List Char)
    (inp : RunInputs) : Manifest :=
  let packDirs := mainPackDirs args inp
  let variants := build_variant_pools root packDirs
  write_manifest root packsDir texturesDir variants
    (packDirs.map PackDir.path) inp.texFS

/-! ## Clean re-extraction of a pack directory (claim C10) -/

/-- The filesystem operations `fetch_kenney_pack` (lines 326–330) and
`fetch_polyhaven_asset` (lines 496–502) perform on a pack's destination
directory, and those of `extract_zip` (lines 270–273). -/
inductive FsOp where
  /-- `if out_dir.exists(): shutil.rmtree(out_dir)` -/
  | rmtreeIfExists
  /-- `dst_dir.mkdir(parents=True, exist_ok=True)` -/
  | mkdirp
  /-- `extractall` writing one archive member -/
  | writeMember (f : List Char)
deriving DecidableEq

/-- Effect of one operation on the directory state (`none` = the directory
does not exist, `some fs` = it exists and holds the files `fs`). -/
def applyOp : Option (List (List Char)) → FsOp → Option (List (List Char))
  | _, .rmtreeIfExists => none
  | none, .mkdirp => some []
  | some fs, .mkdirp => some fs
  | none, .writeMember _ => none
  | some fs, .writeMember f => some (fs ++ [f])

/-- Run a sequence of operations from an initial directory state. -/
def runOps (init : Option (List (List Char))) (ops : List FsOp) :
    Option (List (List Char)) :=
  ops.foldl applyOp init

/-- The operation sequence of one re-extraction: remove any previous
directory, recreate it, then write the archive members in order.
`written` is how many members were written before extraction stopped
(`members.length` on success, fewer when the archive turns out corrupt
part-way). -/
def extractScript (members : List (List Char)) (written : Nat) : List FsOp :=
  FsOp.rmtreeIfExists :: FsOp.mkdirp :: (members.take written).map FsOp.writeMember

/-! ## Derived path collections and concrete run fixtures -/

/-- The outcome `build_texture_sets` keeps for a single candidate name: the
channel record of the first directory matching `cand*`, provided such a
directory exists and the record is non-empty (used to characterize the
candidate loop). -/
def candTextureSet (root texturesDir : List Char) (dirs : List TexDir)
    (cand : List Char) : Option TextureSet :=
  match dirs.filter (fun d => globMatch (cand ++ ['*']) d.name) with
  | [] => none
  | d :: _ =>
    let ts := mkTextureSet root texturesDir d
    if ts.isEmptySet then none else some ts

/-- All entries of the six variant pools. -/
def variantsPaths (v : Variants) : List (List Char) :=
  v.euro_buildings ++ v.industrial_buildings ++ v.beach_shacks
    ++ v.trees_conifer ++ v.trees_broadleaf ++ v.trees_palm

/-- All channel paths of one optional texture set. -/
def texSetPaths : Option TextureSet → List (List Char)
  | none => []
  | some t => t.albedo.toList ++ t.normal.toList ++ t.roughness.toList
      ++ t.metallic.toList ++ t.ao.toList ++ t.height.toList

/-- Every resource path recorded anywhere in a manifest: all variant pool
entries, all texture channels, and the two directory fields. -/
def manifestPaths (m : Manifest) : List (List Char) :=
  variantsPaths m.variants
    ++ texSetPaths m.textures.building_atlas_euro
    ++ texSetPaths m.textures.building_atlas_industrial
    ++ texSetPaths m.textures.terrain_grass
    ++ texSetPaths m.textures.terrain_pavement
    ++ [m.packs_dir, m.textures_dir]

/-- A flag record with every toggle off (argparse defaults). -/
def defaultArgs : Args := ⟨".".data, false, false, false, false, false, false, false⟩

/-- A run in which all five base Kenney pack fetches fail but the first
ambientCG texture is extracted successfully. -/
def c3Inputs : RunInputs :=
  { base := [.failed, .failed, .failed, .failed, .failed]
    ww2 := [], poly := []
    baseTex := [TexStep.okTex "proj/assets/external/textures/ambientcg/Grass004_2K-JPG".data]
    ww2Tex := [], polyTex := [], texFS := none }

/-- A textures directory in which the first euro-atlas candidate
(`Bricks079`) has a directory with no channel files while the second
(`Concrete023`) has a color map. -/
def c5Dirs : List TexDir :=
  [⟨"Bricks079_2K-JPG".data, []⟩,
   ⟨"Concrete023_2K-JPG".data, ["Concrete023_2K-JPG_Color.jpg".data]⟩]

/-- A suburban city-kit pack holding one building model; its path contains
`suburban` and also `building` and `kit`, so the file lands in two coarse
buckets at once. -/
def c6Pack : PackDir :=
  ⟨"proj/assets/external/packs/kenney_city-kit-suburban".data,
   ["proj/assets/external/packs/kenney_city-kit-suburban/Models/building_a.glb".data]⟩

/-- A nature pack holding two distinct tree models. -/
def c6NaturePack : PackDir :=
  ⟨"proj/assets/external/packs/kenney_nature-kit".data,
   ["proj/assets/external/packs/kenney_nature-kit/Models/palm_tall.fbx".data,
    "proj/assets/external/packs/kenney_nature-kit/Models/generic_tree_01.fbx".data]⟩

/-- A run with no fetch outcomes at all. -/
def emptyRun : RunInputs := ⟨[], [], [], [], [], [], none⟩

/-! ## Supporting lemmas -/

/-- The token list the source compiles, split at the first literal
backslash it demands. -/
theorem kenneyZipRegex_eq :
    kenneyZipRegex = "https://kenney".data.map RTok.lit
      ++ RTok.lit (Char.ofNat 92) :: (RTok.anyc :: lits "nl/"
          ++ [RTok.nclassPlus kenneyZipExcl, RTok.lit (Char.ofNat 92), RTok.anyc]
          ++ lits "zip") := by
  decide

/-- A match of a literal-token run followed by `ps` splits the subject
accordingly. -/
theorem rmatchF_lits_split (w : List Char) :
    ∀ {fuel : Nat} {ps : List RTok} {s : List Char} {n : Nat},
      rmatchF fuel (w.map RTok.lit ++ ps) s = some n →
      ∃ t f2 m, s = w ++ t ∧ rmatchF f2 ps t = some m := by
  induction w with
  | nil =>
    intro fuel ps s n h
    exact ⟨s, fuel, n, rfl, h⟩
  | cons c w ih =>
    intro fuel ps s n h
    match fuel, s with
    | 0, s => simp [rmatchF] at h
    | f + 1, [] => simp [rmatchF] at h
    | f + 1, d :: t =>
      replace h : (if d = c
          then (rmatchF f (w.map RTok.lit ++ ps) t).map (· + 1)
          else none) = some n := h
      by_cases hd : d = c
      · rw [if_pos hd] at h
        subst hd
        obtain ⟨n', hn', -⟩ := Option.map_eq_some'.mp h
        obtain ⟨t', f2, m, rfl, ht⟩ := ih hn'
        exact ⟨t', f2, m, rfl, ht⟩
      · rw [if_neg hd] at h
        exact absurd h (by simp)

/-- Any subject matched by the pattern the source compiles contains a
literal backslash. -/
theorem rmatch_kenney_has_backslash {fuel : Nat} {s : List Char} {n : Nat}
    (h : rmatchF fuel kenneyZipRegex s = some n) : Char.ofNat 92 ∈ s := by
  rw [kenneyZipRegex_eq] at h
  obtain ⟨t, f2, m, rfl, ht⟩ := rmatchF_lits_split "https://kenney".data h
  match f2, t, ht with
  | 0, t, ht => simp [rmatchF] at ht
  | f + 1, [], ht => simp [rmatchF] at ht
  | f + 1, d :: t', ht =>
    replace ht : (if d = Char.ofNat 92
        then (rmatchF f (RTok.anyc :: lits "nl/"
            ++ [RTok.nclassPlus kenneyZipExcl, RTok.lit (Char.ofNat 92), RTok.anyc]
            ++ lits "zip") t').map (· + 1)
        else none) = some m := ht
    by_cases hd : d = Char.ofNat 92
    · subst hd
      simp [List.mem_append]
    · rw [if_neg hd] at ht
      exact absurd ht (by simp)

/-- On a subject without backslashes, the scan finds nothing. -/
theorem findallF_kenney_eq_nil : ∀ (fuel : Nat) {s : List Char},
    Char.ofNat 92 ∉ s → findallF fuel kenneyZipRegex s = [] := by
  intro fuel
  induction fuel with
  | zero => intro s _; rfl
  | succ f ih =>
    intro s hns
    match s with
    | [] => rfl
    | c :: t =>
      have htail : Char.ofNat 92 ∉ t := fun hm => hns (List.mem_cons_of_mem _ hm)
      cases hr : rmatch kenneyZipRegex (c :: t) with
      | none =>
        show (match rmatch kenneyZipRegex (c :: t) with
          | some (n + 1) => (c :: t).take (n + 1) :: findallF f kenneyZipRegex (t.drop n)
          | _ => findallF f kenneyZipRegex t) = []
        rw [hr]
        exact ih htail
      | some n =>
        match n with
        | 0 =>
          show (match rmatch kenneyZipRegex (c :: t) with
            | some (n + 1) => (c :: t).take (n + 1) :: findallF f kenneyZipRegex (t.drop n)
            | _ => findallF f kenneyZipRegex t) = []
          rw [hr]
          exact ih htail
        | n + 1 => exact absurd (hns (rmatch_kenney_has_backslash hr)) (fun h => h)

/-- Write the archive members one by one into an existing directory. -/
theorem runOps_writeMembers (l : List (List Char)) (acc : List (List Char)) :
    runOps (some acc) (l.map FsOp.writeMember) = some (acc ++ l) := by
  induction l generalizing acc with
  | nil => simp [runOps]
  | cons f t ih => simpa [runOps, applyOp] using ih (acc ++ [f])

/-- `relResPath root` is injective on paths lying under `root`. -/
theorem relResPath_inj {root p₁ p₂ : List Char}
    (h₁ : (root ++ ['/']).isPrefixOf p₁ = true)
    (h₂ : (root ++ ['/']).isPrefixOf p₂ = true)
    (h : relResPath root p₁ = relResPath root p₂) : p₁ = p₂ := by
  obtain ⟨t₁, ht₁⟩ := List.isPrefixOf_iff_prefix.mp h₁
  obtain ⟨t₂, ht₂⟩ := List.isPrefixOf_iff_prefix.mp h₂
  unfold relResPath at h
  rw [if_pos h₁, if_pos h₂] at h
  have e₁ : p₁.drop (root.length + 1) = t₁ := by
    rw [← ht₁]
    simp [List.drop_left (root ++ ['/']) t₁]
  have e₂ : p₂.drop (root.length + 1) = t₂ := by
    rw [← ht₂]
    simp [List.drop_left (root ++ ['/']) t₂]
  rw [e₁, e₂] at h
  have ht := List.append_cancel_left h
  rw [← ht₁, ← ht₂, ht]

/-- A capped pool built from a duplicate-free candidate list of paths under
the root is duplicate-free. -/
theorem nodup_res_pool {root : List Char} {ms l : List (List Char)} (n : Nat)
    (hl : l.Nodup) (hsub : l ⊆ ms)
    (hpre : ∀ p ∈ ms, (root ++ ['/']).isPrefixOf p = true) :
    ((l.map (relResPath root)).take n).Nodup := by
  refine List.Nodup.sublist (List.take_sublist _ _) ?_
  refine hl.map_on ?_
  intro x hx y hy hxy
  exact relResPath_inj (hpre x (hsub hx)) (hpre y (hsub hy)) hxy

/-- Tree candidates come from the scanned model files. -/
theorem treeCandidates_subset (ms : List (List Char)) : treeCandidates ms ⊆ ms :=
  fun _ hp => List.filter_subset' _ (List.filter_subset' _ hp)

/-- Tree candidates inherit distinctness from the scanned model files. -/
theorem treeCandidates_nodup {ms : List (List Char)} (h : ms.Nodup) :
    (treeCandidates ms).Nodup :=
  (h.filter _).filter _

/-- Every `relResPath` result carries the `res://` virtual-path marker. -/
theorem resPrefix_relResPath (root p : List Char) :
    "res://".data <+: relResPath root p :=
  ⟨_, rfl⟩

/-- Members of a capped `relResPath`-mapped pool carry the marker. -/
theorem resPrefix_of_mem_pool {root : List Char} {l : List (List Char)} {n : Nat}
    {p : List Char} (hp : p ∈ (l.map (relResPath root)).take n) :
    "res://".data <+: p := by
  have hm := List.take_subset _ _ hp
  obtain ⟨q, _, rfl⟩ := List.mem_map.1 hm
  exact resPrefix_relResPath root q

/-- Every entry of the classifier's pools carries the marker. -/
theorem resPrefix_variantsPaths_bvp {root : List Char} {ds : List PackDir}
    {p : List Char} (hp : p ∈ variantsPaths (build_variant_pools root ds)) :
    "res://".data <+: p := by
  simp only [variantsPaths, List.mem_append] at hp
  rcases hp with ((((h | h) | h) | h) | h) | h <;> exact resPrefix_of_mem_pool h

/-- Every resolved texture channel carries the marker. -/
theorem resPrefix_chChannel {root td : List Char} {d : TexDir} {base suf p : List Char}
    (h : chChannel root td d base suf = some p) : "res://".data <+: p := by
  unfold chChannel at h
  obtain ⟨f, _, rfl⟩ := Option.map_eq_some'.mp h
  exact resPrefix_relResPath _ _

/-- Every channel of a directory's channel record carries the marker. -/
theorem resPrefix_texSetPaths_mk {root td : List Char} {d : TexDir} {p : List Char}
    (hp : p ∈ texSetPaths (some (mkTextureSet root td d))) : "res://".data <+: p := by
  simp only [texSetPaths, List.mem_append, Option.mem_toList, Option.mem_def] at hp
  rcases hp with ((((h | h) | h) | h) | h) | h <;>
    exact resPrefix_chChannel (by simpa [mkTextureSet] using h)

/-- A kept texture set is the channel record of some directory. -/
theorem pickTextureSet_eq_some {root td : List Char} {dirs : List TexDir}
    {cands : List (List Char)} {ts : TextureSet}
    (h : pickTextureSet root td dirs cands = some ts) :
    ∃ d, ts = mkTextureSet root td d := by
  induction cands with
  | nil => simp [pickTextureSet] at h
  | cons c rest ih =>
    rw [show pickTextureSet root td dirs (c :: rest)
        = (match dirs.filter (fun d => globMatch (c ++ ['*']) d.name) with
           | [] => pickTextureSet root td dirs rest
           | d :: _ =>
             if (mkTextureSet root td d).isEmptySet then pickTextureSet root td dirs rest
             else some (mkTextureSet root td d)) from rfl] at h
    cases hf : dirs.filter (fun d => globMatch (c ++ ['*']) d.name) with
    | nil => rw [hf] at h; exact ih h
    | cons d0 ds0 =>
      rw [hf] at h
      replace h : (if (mkTextureSet root td d0).isEmptySet = true
          then pickTextureSet root td dirs rest
          else some (mkTextureSet root td d0)) = some ts := h
      by_cases he : (mkTextureSet root td d0).isEmptySet
      · rw [if_pos he] at h; exact ih h
      · rw [if_neg he] at h
        exact ⟨d0, (Option.some_injective _ h).symm⟩

/-- Channels of whatever the candidate loop kept carry the marker. -/
theorem resPrefix_texSetPaths_pick {root td : List Char} {dirs : List TexDir}
    {cands : List (List Char)} {p : List Char}
    (hp : p ∈ texSetPaths (pickTextureSet root td dirs cands)) :
    "res://".data <+: p := by
  cases hpk : pickTextureSet root td dirs cands with
  | none => rw [hpk] at hp; simp [texSetPaths] at hp
  | some ts =>
    obtain ⟨d, rfl⟩ := pickTextureSet_eq_some hpk
    rw [hpk] at hp
    exact resPrefix_texSetPaths_mk hp

/-- Channels of all four texture-set keys carry the marker. -/
theorem resPrefix_texSets {root td : List Char} {fs : Option (List TexDir)}
    {p : List Char}
    (hp : p ∈ texSetPaths (build_texture_sets root td fs).building_atlas_euro
        ∨ p ∈ texSetPaths (build_texture_sets root td fs).building_atlas_industrial
        ∨ p ∈ texSetPaths (build_texture_sets root td fs).terrain_grass
        ∨ p ∈ texSetPaths (build_texture_sets root td fs).terrain_pavement) :
    "res://".data <+: p := by
  cases fs with
  | none => simp [build_texture_sets, texSetPaths] at hp
  | some dirs =>
    rcases hp with h | h | h | h <;> exact resPrefix_texSetPaths_pick h

/-! ## Claims -/

/-- C1: the claim says `_pick_best_kenney_zip_link` returns a link whenever
the page holds a direct ZIP link of the shape `https://kenney.nl/…zip`, and
none only when no such link exists.  The raw-string pattern the source
compiles (`\\.` = a literal backslash then any character) can only match
subjects containing a literal backslash, so on any real page text — which
contains none — the picker returns `None`, even when a well-formed link of
the documented shape is present (as the second conjunct witnesses on a
concrete page fragment via the intended, spec-shaped pattern). -/
theorem C1_kenney_zip_link_picker_requires_backslash (html : List Char)
    (hnb : Char.ofNat 92 ∉ html) :
    pickBestKenneyZipLink html = none
      ∧ findall specKenneyZipRegex kenneyHtmlExample
          = ["https://kenney.nl/media/pages/assets/kenney_building-kit.zip".data] := by
  refine ⟨?_, by decide⟩
  unfold pickBestKenneyZipLink
  rw [show findall kenneyZipRegex html = [] from findallF_kenney_eq_nil html.length hnb]

/-- C1 witness: a concrete page fragment with a well-formed download link
and no backslash, on which the picker still returns `None`. -/
theorem C1_kenney_zip_link_picker_requires_backslash_witness :
    Char.ofNat 92 ∉ kenneyHtmlExample
      ∧ (pickBestKenneyZipLink kenneyHtmlExample = none
        ∧ findall specKenneyZipRegex kenneyHtmlExample
            = ["https://kenney.nl/media/pages/assets/kenney_building-kit.zip".data]) :=
  ⟨by decide, C1_kenney_zip_link_picker_requires_backslash kenneyHtmlExample (by decide)⟩

/-- C2: the claim says `--local-only` prevents all network access, failing
any bundle not matched in the ingest cache.  In the code the parsed flag is
never read: the fetch decision is identical for every value of
`local_only`, and with the flag set and an empty cache the fetch still
proceeds to the network (contradicting the script's own docstring and help
text). -/
theorem C2_local_only_flag_ignored (args : Args) (ingest : List (List Char))
    (pack : KenneyPack) (b : Bool) :
    kenneyFetchSource { args with local_only := b } ingest pack
        = kenneyFetchSource args ingest pack
      ∧ kenneyFetchSource { args with local_only := true } [] pack
        = .network pack.page_url :=
  ⟨rfl, rfl⟩

/-- C3 counterexample: a run in which every model-pack fetch fails but one
ambientCG texture is fetched and extracted successfully still writes
`use_external_assets = false` — refuting the claim that a successfully
extracted *texture* pack makes `use_external_assets` true. -/
theorem C3_texture_only_run_counterexample :
    (fetch_ambientcg_textures c3Inputs.baseTex).1
        = ["proj/assets/external/textures/ambientcg/Grass004_2K-JPG".data]
      ∧ (fetch_ambientcg_textures c3Inputs.baseTex).2 = false
      ∧ (mainRun defaultArgs "proj".data "proj/assets/external/packs".data
          "proj/assets/external/textures/ambientcg".data c3Inputs).use_external_assets
          = false := by
  decide

/-- C3 as amended: `use_external_assets` is true iff at least one *model*
pack (Kenney, WW2 or Poly Haven) was successfully extracted in this run —
texture extraction does not count — and `status.assets_downloaded` always
equals it; both are recomputed from this run's outcomes alone. -/
theorem C3_use_external_assets_iff_model_pack (args : Args)
    (root packsDir texturesDir : List Char) (inp : RunInputs) :
    ((mainRun args root packsDir texturesDir inp).use_external_assets = true
        ↔ mainPackDirs args inp ≠ [])
      ∧ (mainRun args root packsDir texturesDir inp).status.assets_downloaded
          = (mainRun args root packsDir texturesDir inp).use_external_assets := by
  constructor
  · show (!((mainPackDirs args inp).map PackDir.path).isEmpty) = true ↔ _
    simp [List.isEmpty_iff]
  · rfl

/-- C4: with zero pack directories the written manifest forces every one of
the six pools to the empty list whatever classification result was passed
in, reports `assets_downloaded = false`, and carries a non-empty warning
string. -/
theorem C4_zero_packs_fallback_manifest (root packsDir texturesDir : List Char)
    (variants : Variants) (texFS : Option (List TexDir)) :
    (write_manifest root packsDir texturesDir variants [] texFS).variants
        = emptyVariants
      ∧ (write_manifest root packsDir texturesDir variants [] texFS).status.assets_downloaded
          = false
      ∧ (write_manifest root packsDir texturesDir variants [] texFS).status.warning ≠ [] := by
  refine ⟨rfl, rfl, ?_⟩
  show "No assets were successfully downloaded. Using fallback values.".data ≠ []
  decide

/-- C5 counterexample: the first euro-atlas candidate `Bricks079` has a
directory on disk, yet because that directory yields no channel files the
builder goes on to the second candidate `Concrete023` and keeps its set —
refuting the claim that the first candidate directory found on disk alone
determines the key's texture set and later candidates are never
consulted. -/
theorem C5_empty_candidate_dir_counterexample :
    c5Dirs.filter (fun d => globMatch ("Bricks079".data ++ ['*']) d.name)
        = [⟨"Bricks079_2K-JPG".data, []⟩]
      ∧ (build_texture_sets "proj".data
            "proj/assets/external/textures/ambientcg".data
            (some c5Dirs)).building_atlas_euro
          = some { albedo := some "res://assets/external/textures/ambientcg/Concrete023_2K-JPG/Concrete023_2K-JPG_Color.jpg".data
                   normal := none, roughness := none, metallic := none
                   ao := none, height := none } := by
  decide

/-- C5 as amended: for every logical key the candidates are tried in order
and the winner is the first candidate that both has a directory on disk and
yields a non-empty channel record; a candidate whose directory exists but
yields no channels is skipped; a key with no such candidate is simply
absent. -/
theorem C5_first_nonempty_candidate_wins (root texturesDir : List Char)
    (dirs : List TexDir) (cands : List (List Char)) :
    pickTextureSet root texturesDir dirs cands
      = (cands.filterMap (candTextureSet root texturesDir dirs)).head? := by
  induction cands with
  | nil => rfl
  | cons c rest ih =>
    cases h : dirs.filter (fun d => globMatch (c ++ ['*']) d.name) with
    | nil =>
      have h1 : pickTextureSet root texturesDir dirs (c :: rest)
          = pickTextureSet root texturesDir dirs rest := by
        simp only [pickTextureSet, h]
      have h2 : candTextureSet root texturesDir dirs c = none := by
        simp only [candTextureSet, h]
      rw [List.filterMap_cons, h2, h1, ih]
    | cons d ds =>
      by_cases he : (mkTextureSet root texturesDir d).isEmptySet
      · have h1 : pickTextureSet root texturesDir dirs (c :: rest)
            = pickTextureSet root texturesDir dirs rest := by
          simp only [pickTextureSet, h]
          simp [he]
        have h2 : candTextureSet root texturesDir dirs c = none := by
          simp only [candTextureSet, h]
          simp [he]
        rw [List.filterMap_cons, h2, h1, ih]
      · have h1 : pickTextureSet root texturesDir dirs (c :: rest)
            = some (mkTextureSet root texturesDir d) := by
          simp only [pickTextureSet, h]
          simp [he]
        have h2 : candTextureSet root texturesDir dirs c
            = some (mkTextureSet root texturesDir d) := by
          simp only [candTextureSet, h]
          simp [he]
        rw [List.filterMap_cons, h2, h1]
        simp

/-- C6 counterexample: one suburban city-kit pack with one building model;
the file's path contains `suburban` and also `building` and `kit`, so it
enters both the suburban and the building-kit coarse buckets, and the
emitted euro pool lists the same resource path twice — refuting the claim
that no path appears twice in the same pool. -/
theorem C6_duplicate_in_euro_pool_counterexample :
    (build_variant_pools "proj".data [c6Pack]).euro_buildings
      = ["res://assets/external/packs/kenney_city-kit-suburban/Models/building_a.glb".data,
         "res://assets/external/packs/kenney_city-kit-suburban/Models/building_a.glb".data]
    ∧ ¬ (build_variant_pools "proj".data [c6Pack]).euro_buildings.Nodup := by
  constructor
  · decide
  · decide

/-- C6 as amended: every pool respects its cap (24 for buildings, 32 for
trees), and the three tree pools — built from a single coarse bucket —
contain no duplicates whenever the scanned model files are pairwise
distinct paths under the project root; the three building pools, built
from the concatenation of two coarse buckets, may repeat a path that lies
in both buckets. -/
theorem C6_pool_caps_and_tree_nodup (root : List Char) (ds : List PackDir)
    (hnd : (modelFiles ds).Nodup)
    (hpre : ∀ p ∈ modelFiles ds, (root ++ ['/']).isPrefixOf p = true) :
    ((build_variant_pools root ds).euro_buildings.length ≤ 24
      ∧ (build_variant_pools root ds).industrial_buildings.length ≤ 24
      ∧ (build_variant_pools root ds).beach_shacks.length ≤ 24
      ∧ (build_variant_pools root ds).trees_conifer.length ≤ 32
      ∧ (build_variant_pools root ds).trees_broadleaf.length ≤ 32
      ∧ (build_variant_pools root ds).trees_palm.length ≤ 32)
    ∧ ((build_variant_pools root ds).trees_conifer.Nodup
      ∧ (build_variant_pools root ds).trees_broadleaf.Nodup
      ∧ (build_variant_pools root ds).trees_palm.Nodup) := by
  refine ⟨⟨?_, ?_, ?_, ?_, ?_, ?_⟩, ?_, ?_, ?_⟩
  · exact List.length_take_le _ _
  · exact List.length_take_le _ _
  · exact List.length_take_le _ _
  · exact List.length_take_le _ _
  · exact List.length_take_le _ _
  · exact List.length_take_le _ _
  · exact nodup_res_pool 32 ((treeCandidates_nodup hnd).filter _)
      (fun _ hp => treeCandidates_subset _ (List.filter_subset' _ hp)) hpre
  · show ((broadleafCandidates (modelFiles ds)).map (relResPath root)).take 32 |>.Nodup
    unfold broadleafCandidates
    by_cases hb : (coniferCandidates (modelFiles ds)).isEmpty
        && (palmCandidates (modelFiles ds)).isEmpty
        && !(treeCandidates (modelFiles ds)).isEmpty
    · rw [if_pos hb]
      exact nodup_res_pool 32 (treeCandidates_nodup hnd) (treeCandidates_subset _) hpre
    · rw [if_neg hb]
      exact nodup_res_pool 32 ((treeCandidates_nodup hnd).filter _)
        (fun _ hp => treeCandidates_subset _ (List.filter_subset' _ hp)) hpre
  · exact nodup_res_pool 32 ((treeCandidates_nodup hnd).filter _)
      (fun _ hp => treeCandidates_subset _ (List.filter_subset' _ hp)) hpre

/-- C6 witness: a nature pack with two distinct tree files under the
project root. -/
theorem C6_pool_caps_and_tree_nodup_witness :
    ((modelFiles [c6NaturePack]).Nodup
      ∧ ∀ p ∈ modelFiles [c6NaturePack],
          ("proj".data ++ ['/']).isPrefixOf p = true)
    ∧ (((build_variant_pools "proj".data [c6NaturePack]).euro_buildings.length ≤ 24
        ∧ (build_variant_pools "proj".data [c6NaturePack]).industrial_buildings.length ≤ 24
        ∧ (build_variant_pools "proj".data [c6NaturePack]).beach_shacks.length ≤ 24
        ∧ (build_variant_pools "proj".data [c6NaturePack]).trees_conifer.length ≤ 32
        ∧ (build_variant_pools "proj".data [c6NaturePack]).trees_broadleaf.length ≤ 32
        ∧ (build_variant_pools "proj".data [c6NaturePack]).trees_palm.length ≤ 32)
      ∧ ((build_variant_pools "proj".data [c6NaturePack]).trees_conifer.Nodup
        ∧ (build_variant_pools "proj".data [c6NaturePack]).trees_broadleaf.Nodup
        ∧ (build_variant_pools "proj".data [c6NaturePack]).trees_palm.Nodup)) :=
  ⟨⟨by decide, by decide⟩,
    C6_pool_caps_and_tree_nodup "proj".data [c6NaturePack] (by decide) (by decide)⟩

/-- C7 counterexample: a texture batch whose first texture's archive is
corrupt (extraction raises) never processes the second texture, although
that texture on its own extracts fine — refuting the claim that every
per-texture operation is wrapped so no exception from one item skips
another. -/
theorem C7_texture_extract_abort_counterexample :
    fetch_ambientcg_textures [TexStep.extractRaised,
        TexStep.okTex "proj/assets/external/textures/ambientcg/Grass004_2K-JPG".data]
      = ([], true)
    ∧ fetch_ambientcg_textures
        [TexStep.okTex "proj/assets/external/textures/ambientcg/Grass004_2K-JPG".data]
      = (["proj/assets/external/textures/ambientcg/Grass004_2K-JPG".data], false) := by
  decide

/-- C7 as amended: each per-pack fetch is isolated (a success contributes
its directory whatever happens around it), a failed texture *download* is
skipped without affecting the rest of its batch, but a failed texture
*extraction* aborts the remaining textures of its batch (the exception is
caught only at batch level by `main`); the manifest is written in every
case. -/
theorem C7_per_item_isolation (args : Args) (root packsDir texturesDir : List Char)
    (inp : RunInputs) (rs₁ rs₂ : List PackResult) (d : PackDir) (ts : List TexStep) :
    okDirs (rs₁ ++ PackResult.ok d :: rs₂) = okDirs rs₁ ++ d :: okDirs rs₂
    ∧ fetch_ambientcg_textures (TexStep.downloadFailed :: ts)
        = fetch_ambientcg_textures ts
    ∧ fetch_ambientcg_textures (TexStep.extractRaised :: ts) = ([], true)
    ∧ (mainRun args root packsDir texturesDir inp).version = 2 := by
  refine ⟨?_, rfl, rfl, rfl⟩
  simp [okDirs, List.filterMap_append, List.filterMap_cons]

/-- C8 counterexample: for the spec name `kenney_city-kit-suburban` and the
cached file `kenney-city-kit-suburban.zip` the normalized-substring
criterion holds (and the unused helper `find_local_zip` would match), yet
the lookup `fetch_kenney_pack` actually performs — plain lowercased
substring, separators kept — misses it. -/
theorem C8_separator_mismatch_counterexample :
    containsSub (normalizeName "kenney-city-kit-suburban.zip".data)
        (normalizeName "kenney_city-kit-suburban".data) = true
    ∧ find_local_zip ["kenney-city-kit-suburban.zip".data]
        "kenney_city-kit-suburban".data
        = some "kenney-city-kit-suburban.zip".data
    ∧ kenneyIngestLookup "kenney_city-kit-suburban".data
        ["kenney-city-kit-suburban.zip".data] = none := by
  decide

/-- C8 as amended: the cache lookup performed when fetching a pack matches
a file iff the lowercased spec name is a substring of the lowercased
filename — case-insensitive but separator-sensitive; it returns the first
such file.  The spec's own scenario (`Kenney_City-Kit-Suburban.zip` vs
`kenney_city-kit-suburban`) still matches because its separators agree. -/
theorem C8_lookup_is_plain_substring (ingest : List (List Char)) (slug : List Char) :
    kenneyIngestLookup slug ingest
      = ingest.find? (fun z => containsSub (lowerL z) (lowerL slug))
    ∧ kenneyIngestLookup "kenney_city-kit-suburban".data
        ["Kenney_City-Kit-Suburban.zip".data]
      = some "Kenney_City-Kit-Suburban.zip".data := by
  constructor
  · induction ingest with
    | nil => rfl
    | cons z rest ih =>
      by_cases h : containsSub (lowerL z) (lowerL slug)
      · simp [kenneyIngestLookup, List.find?, h]
      · simp only [kenneyIngestLookup, List.find?, h]
        simpa [h] using ih
  · decide

/-- C9: every resource path recorded anywhere in the manifest a run writes
— every variant pool entry, every texture channel, and the two directory
fields — begins with the virtual-path marker `res://`; no absolute
filesystem path appears. -/
theorem C9_manifest_paths_res_prefix (args : Args)
    (root packsDir texturesDir : List Char) (inp : RunInputs) (p : List Char)
    (hp : p ∈ manifestPaths (mainRun args root packsDir texturesDir inp)) :
    "res://".data <+: p := by
  have hp' : p ∈ manifestPaths (write_manifest root packsDir texturesDir
      (build_variant_pools root (mainPackDirs args inp))
      ((mainPackDirs args inp).map PackDir.path) inp.texFS) := hp
  simp only [manifestPaths, List.mem_append] at hp'
  rcases hp' with ((((h | h) | h) | h) | h) | h
  · by_cases hb : (((mainPackDirs args inp).map PackDir.path).isEmpty : Bool)
    · have hv : (write_manifest root packsDir texturesDir
          (build_variant_pools root (mainPackDirs args inp))
          ((mainPackDirs args inp).map PackDir.path) inp.texFS).variants
            = emptyVariants := by
        simp [write_manifest, hb]
      rw [hv] at h
      simp [variantsPaths, emptyVariants] at h
    · have hv : (write_manifest root packsDir texturesDir
          (build_variant_pools root (mainPackDirs args inp))
          ((mainPackDirs args inp).map PackDir.path) inp.texFS).variants
            = build_variant_pools root (mainPackDirs args inp) := by
        simp [write_manifest, hb]
      rw [hv] at h
      exact resPrefix_variantsPaths_bvp h
  · exact resPrefix_texSets (Or.inl h)
  · exact resPrefix_texSets (Or.inr (Or.inl h))
  · exact resPrefix_texSets (Or.inr (Or.inr (Or.inl h)))
  · exact resPrefix_texSets (Or.inr (Or.inr (Or.inr h)))
  · rcases List.mem_pair.mp h with rfl | rfl
    · exact resPrefix_relResPath _ _
    · exact resPrefix_relResPath _ _

/-- C9 witness: the `packs_dir` entry of an all-defaults empty run. -/
theorem C9_manifest_paths_res_prefix_witness :
    (mainRun defaultArgs "proj".data "proj/assets/external/packs".data
        "proj/assets/external/textures/ambientcg".data emptyRun).packs_dir
      ∈ manifestPaths (mainRun defaultArgs "proj".data
        "proj/assets/external/packs".data
        "proj/assets/external/textures/ambientcg".data emptyRun)
    ∧ "res://".data <+: (mainRun defaultArgs "proj".data
        "proj/assets/external/packs".data
        "proj/assets/external/textures/ambientcg".data emptyRun).packs_dir :=
  ⟨by decide, C9_manifest_paths_res_prefix defaultArgs "proj".data
    "proj/assets/external/packs".data
    "proj/assets/external/textures/ambientcg".data emptyRun _ (by decide)⟩

/-- C10: whatever the destination directory held before (any previous
extraction included), re-extracting a pack first removes the directory and
recreates it, so the resulting directory holds exactly the members written
by *this* extraction — all of them on success, a prefix of them when the
archive fails part-way — and in particular never any stale file. -/
theorem C10_clean_reextraction (prev : Option (List (List Char)))
    (members : List (List Char)) (written : Nat) :
    runOps prev (extractScript members written) = some (members.take written)
    ∧ (runOps prev (extractScript members written)).getD [] ⊆ members := by
  have h : runOps prev (extractScript members written)
      = some (members.take written) := by
    have hw := runOps_writeMembers (members.take written) []
    simpa [runOps, extractScript, applyOp] using hw
  exact ⟨h, by rw [h]; exact List.take_subset _ _⟩

end FetchAssets
